import Mathlib

/-
  Verification development for the `Collection` core of a small full-text
  search engine (source: src/collection.cpp).  The C++ code is shallowly
  embedded: machine integers become Nat/Int with explicit wrapping,
  `Option<T>` becomes the `Opt` result type, the key-value `Store`
  collaborator (whose contract is given by the specification) becomes an
  association list from byte keys to values, and the `Index` shards (which
  live outside the translated file) are abstracted by the accumulator data
  they hand back to `Collection::search`.
-/

set_option linter.unusedVariables false

namespace Typesense

/-- Modelled from the spec: nlohmann::json document values (the JSON library
is an external dependency).  Floating point numbers are carried as their
IEEE-754 single-precision bit pattern (a natural number below 2^32), which
is exactly the representation `Collection::index_in_memory` manipulates. -/
inductive Json where
  | null
  | str (s : String)
  | numInt (n : Int)
  | numFloat (bits : Nat)
  | arr (elems : List Json)
  | obj (entries : List (String × Json))

/-- `json.count(key)` for object documents (0 on non-objects). -/
def Json.count (j : Json) (k : String) : Nat :=
  match j with
  | .obj es => if es.any (fun e => e.1 == k) then 1 else 0
  | _ => 0

/-- `json[key]` read access; `null` when the key is missing (read-only uses
in the source are always guarded by `count`). -/
def Json.get (j : Json) (k : String) : Json :=
  match j with
  | .obj es => ((es.find? (fun e => e.1 == k)).map (fun e => e.2)).getD Json.null
  | _ => Json.null

/-- `json[key] = v` write access on objects (the source only assigns into
object documents; a non-object is returned unchanged, a case nlohmann
would reject and which the theorems below exclude). -/
def Json.setKey (j : Json) (k : String) (v : Json) : Json :=
  match j with
  | .obj es =>
      if es.any (fun e => e.1 == k) then
        .obj (es.map (fun e => if e.1 == k then (k, v) else e))
      else
        .obj (es ++ [(k, v)])
  | other => other

/-- `json[i]` element access on arrays. -/
def Json.atIdx (j : Json) (i : Nat) : Json :=
  match j with
  | .arr es => es.getD i Json.null
  | _ => Json.null

def Json.isString : Json → Bool
  | .str _ => true
  | _ => false

/-- `is_number_integer()` -/
def Json.isNumInt : Json → Bool
  | .numInt _ => true
  | _ => false

/-- `is_number_float()` -/
def Json.isNumFloat : Json → Bool
  | .numFloat _ => true
  | _ => false

/-- `is_number()` -/
def Json.isNum : Json → Bool
  | .numInt _ => true
  | .numFloat _ => true
  | _ => false

def Json.isArr : Json → Bool
  | .arr _ => true
  | _ => false

def Json.isObj : Json → Bool
  | .obj _ => true
  | _ => false

/-- `size()` of an array value (only called on arrays in the source). -/
def Json.size : Json → Nat
  | .arr es => es.length
  | _ => 0

/-- `get<int64_t>()` on an integer-typed JSON number. -/
def Json.getInt : Json → Int
  | .numInt n => n
  | _ => 0

/-- The string payload of a JSON string (used for `std::string doc_id =
document["id"]`, always after an `is_string` check). -/
def Json.asString : Json → String
  | .str s => s
  | _ => ""

/-- Top-level keys of a JSON object, in representation order. -/
def Json.objKeys : Json → List String
  | .obj es => es.map (fun e => e.1)
  | _ => []

/-- Modelled from the spec: the `Option<T>` result envelope of option.h
(outside src/): a value, or an `(http_code, message)` error pair. -/
inductive Opt (α : Type) where
  | ok (v : α)
  | err (code : Nat) (msg : String)

def Opt.isOk {α : Type} : Opt α → Bool
  | .ok _ => true
  | .err _ _ => false

/-- `Option::code()` (200 for an ok result). -/
def Opt.code {α : Type} : Opt α → Nat
  | .ok _ => 200
  | .err c _ => c

/-- Store keys are byte strings. -/
abbrev Key := List Nat

/-- Modelled from the spec: the values held by the Store collaborator.
Byte-string values are kept in structured form: `sv` for plain strings
(decimal seq_id values), `jv` for a serialized document (`document.dump()`;
nlohmann's dump/parse round-trip is the identity on the parsed form, so the
parsed document itself is stored), `nv` for the decimal ASCII counter that
`increment` maintains. -/
inductive StoreVal where
  | sv (s : String)
  | jv (j : Json)
  | nv (n : Nat)

/-- Modelled from the spec: the Store collaborator (an ordered byte-keyed
persistent key-value map, not implemented by the core) as an association
list with at most one entry per key. -/
abbrev Store := List (Key × StoreVal)

/-- Modelled from the spec: `Store::get`. -/
def storeGet (st : Store) (k : Key) : Option StoreVal :=
  (st.find? (fun e => e.1 == k)).map (fun e => e.2)

/-- Modelled from the spec: `Store::insert` (upsert). -/
def storeInsert (st : Store) (k : Key) (v : StoreVal) : Store :=
  (k, v) :: st.filter (fun e => ¬ (e.1 = k))

/-- Modelled from the spec: `Store::remove`. -/
def storeRemove (st : Store) (k : Key) : Store :=
  st.filter (fun e => ¬ (e.1 = k))

/-- Modelled from the spec: `Store::increment` with create-if-absent
semantics for a decimal-ASCII counter. -/
def storeIncrement (st : Store) (k : Key) (delta : Nat) : Store :=
  match storeGet st k with
  | some (.nv n) => storeInsert st k (.nv (n + delta))
  | _ => storeInsert st k (.nv delta)

/-- Bytes of an ASCII/std::string value (characters as code points). -/
def strBytes (s : String) : Key := s.data.map Char.toNat

/-- `Collection::get_next_seq_id_key`; the `$CN` tag is the
COLLECTION_NEXT_SEQ_PREFIX constant fixed by the spec's key layout. -/
def get_next_seq_id_key (collection_name : String) : Key :=
  strBytes ("$CN" ++ "_" ++ collection_name)

/-- The `<collection_id>_$DI_` tag that starts every document-id key;
`$DI` is the DOC_ID_PREFIX constant fixed by the spec's key layout. -/
def doc_tag (collection_id : Nat) : Key :=
  strBytes (toString collection_id ++ "_" ++ "$DI" ++ "_")

/-- `Collection::get_doc_id_key`. -/
def get_doc_id_key (collection_id : Nat) (doc_id : String) : Key :=
  doc_tag collection_id ++ strBytes doc_id

/-- `Collection::get_seq_id_collection_prefix`; `$SI` is the SEQ_ID_PREFIX
constant fixed by the spec's key layout. -/
def seq_id_head (collection_id : Nat) : Key :=
  strBytes (toString collection_id ++ "_" ++ "$SI")

/-- `Collection::get_seq_id_key`: collection prefix followed by the four
big-endian bytes of the 32-bit seq_id (`(seq_id >> k) & 0xFF`). -/
def get_seq_id_key (collection_id : Nat) (seq_id : Nat) : Key :=
  seq_id_head collection_id ++ strBytes "_" ++
    [(seq_id >>> 24) &&& 255, (seq_id >>> 16) &&& 255, (seq_id >>> 8) &&& 255, seq_id &&& 255]

/-- Modelled from the spec: the `field_types` type constants of field.h
(outside src/). -/
inductive FieldType where
  | STRING
  | INT32
  | INT64
  | FLOAT
  | STRING_ARRAY
  | INT32_ARRAY
  | INT64_ARRAY
  | FLOAT_ARRAY
deriving DecidableEq

/-- Modelled from the spec: the field descriptor of field.h (outside src/):
name, declared type, facet flag. -/
structure Field where
  name : String
  type : FieldType
  facet : Bool

/-- Modelled from the spec: `field::is_facet()`. -/
def Field.is_facet (f : Field) : Bool := f.facet

/-- Modelled from the spec: `field::is_single_integer()` (scalar `int32` or
`int64`). -/
def Field.is_single_integer (f : Field) : Bool :=
  f.type == FieldType.INT32 || f.type == FieldType.INT64

/-- Modelled from the spec: `field::is_single_float()` (scalar `float`). -/
def Field.is_single_float (f : Field) : Bool :=
  f.type == FieldType.FLOAT

/-- The immutable configuration a Collection is constructed with: name,
collection_id, declared fields, optional token ranking field (empty string
when unset). -/
structure CollectionCfg where
  name : String
  collection_id : Nat
  fields : List Field
  token_ranking_field : String

/-- `search_schema`: every declared field (the constructor emplaces each
field; lookup takes the first field of a given name, matching emplace
semantics on duplicates). -/
def search_schema (cfg : CollectionCfg) : List Field := cfg.fields

/-- `facet_schema`: the declared fields with `facet = true`. -/
def facet_schema (cfg : CollectionCfg) : List Field :=
  cfg.fields.filter (fun f => f.is_facet)

/-- `sort_schema`: the single-valued numeric fields. -/
def sort_schema (cfg : CollectionCfg) : List Field :=
  cfg.fields.filter (fun f => f.is_single_integer || f.is_single_float)

/-- Hash-map lookup (`count` / `at`) over a schema. -/
def schemaFind (l : List Field) (n : String) : Option Field :=
  l.find? (fun f => f.name == n)

/-- The mutable collection state the claims are about: the in-memory
next_seq_id counter, num_documents, and the Store contents.  (Shard-internal
index state lives in the Index objects outside the translated file.) -/
structure CollectionState where
  next_seq_id : Nat
  num_documents : Nat
  store : Store

/-- `Collection::get_next_seq_id`: persist an increment of the `$CN` counter
in the Store and return the current in-memory counter, post-incrementing it
(uint32 arithmetic). -/
def Collection.get_next_seq_id (cfg : CollectionCfg) (s : CollectionState) :
    Nat × CollectionState :=
  let st := storeIncrement s.store (get_next_seq_id_key cfg.name) 1
  (s.next_seq_id,
   { s with store := st, next_seq_id := (s.next_seq_id + 1) % 2 ^ 32 })

/-- INT32_MAX. -/
def INT32_MAX : Int := 2 ^ 31 - 1

/-- The bit pattern of FLT_MAX (`std::numeric_limits<float>::max()`). -/
def FLT_MAX_BITS : Nat := 0x7F7FFFFF

/-- The value of a single-precision bit pattern, scaled by 2^149 so that it
is an integer: sign `u / 2^31`, biased exponent `e`, mantissa `m`; the
represented real is `(-1)^s * m * 2^(e-150)` with an implicit leading
mantissa bit for `e > 0` (and `2^(1-150)` scaling for subnormals).  Scaling
by the constant 2^149 preserves order, which is all the comparisons need. -/
def magZ (r : Nat) : Int :=
  if r / 2 ^ 23 = 0 then (r : Int)
  else ((2 ^ 23 : Int) + (r % 2 ^ 23 : Nat)) * 2 ^ (r / 2 ^ 23 - 1)

/-- Signed scaled value of a float bit pattern (see `magZ`). -/
def floatValZ (u : Nat) : Int :=
  if u < 2 ^ 31 then magZ (u % 2 ^ 31) else -(magZ (u % 2 ^ 31))

/-- Signed reading of an int32 bit pattern. -/
def intOfBits (u : Nat) : Int :=
  if u < 2 ^ 31 then (u : Int) else (u : Int) - 2 ^ 32

/-- Bit pattern of an int32 value (two's complement wrap). -/
def bitsOfInt (z : Int) : Nat := (z % 2 ^ 32).toNat

/-- Bit pattern of `points >> 31` (arithmetic shift of an int32): 0 for
non-negative values, all ones for negative ones. -/
def asr31 (u : Nat) : Nat := if u < 2 ^ 31 then 0 else 2 ^ 32 - 1

/-- The float-to-int32 ranking encoding of `Collection::index_in_memory`,
on bit patterns: `points ^= ((points >> 31) | INT32_MIN);
points = -1 * (INT32_MAX - points)` (int32 arithmetic wraps). -/
def encodeFloatBits (u : Nat) : Nat :=
  let p1 := u ^^^ (asr31 u ||| 2 ^ 31)
  bitsOfInt ((-1) * ((2 ^ 31 - 1) - intOfBits p1))

/-- The encoded ranking value read back as a signed int32. -/
def encodeFloat (u : Nat) : Int := intOfBits (encodeFloatBits u)

/-- Closed form of the XOR step of the float encoding: flip the sign bit of
a non-negative pattern, complement a negative one. -/
def keyOf (u : Nat) : Nat := if u < 2 ^ 31 then u + 2 ^ 31 else 2 ^ 32 - 1 - u

/-- `is_number_float() && get<float>() > std::numeric_limits<float>::max()`
on a JSON value (float comparisons via the order-preserving scaled value). -/
def floatTooBig (v : Json) : Bool :=
  match v with
  | .numFloat bits => decide (floatValZ bits > floatValZ FLT_MAX_BITS)
  | _ => false

/-- One iteration of the token-ranking-field checks of
`Collection::validate_index_in_memory` (lines 87-105). -/
def checkTokenRanking (cfg : CollectionCfg) (document : Json) : Opt Unit :=
  if cfg.token_ranking_field ≠ "" ∧ document.count cfg.token_ranking_field = 0 then
    .err 400 ("Field `" ++ cfg.token_ranking_field ++ "` has been declared as a token ranking field, but is not found in the document.")
  else if cfg.token_ranking_field ≠ "" ∧ ¬ ((document.get cfg.token_ranking_field).isNumInt = true ∨ (document.get cfg.token_ranking_field).isNumFloat = true) then
    .err 400 ("Token ranking field `" ++ cfg.token_ranking_field ++ "` must be a number.")
  else if cfg.token_ranking_field ≠ "" ∧ (document.get cfg.token_ranking_field).isNumInt = true ∧ (document.get cfg.token_ranking_field).getInt > INT32_MAX then
    .err 400 ("Token ranking field `" ++ cfg.token_ranking_field ++ "` exceeds maximum value of int32.")
  else if cfg.token_ranking_field ≠ "" ∧ floatTooBig (document.get cfg.token_ranking_field) = true then
    .err 400 ("Token ranking field `" ++ cfg.token_ranking_field ++ "` exceeds maximum value of a float.")
  else .ok ()

/-- One iteration of the per-field search-schema loop of
`Collection::validate_index_in_memory` (lines 107-167). -/
def checkSearchField (document : Json) (fld : Field) : Opt Unit :=
  if document.count fld.name = 0 then
    .err 400 ("Field `" ++ fld.name ++ "` has been declared in the schema, but is not found in the document.")
  else
    match fld.type with
    | .STRING =>
        if ¬ (document.get fld.name).isString then .err 400 ("Field `" ++ fld.name ++ "` must be a string.")
        else .ok ()
    | .INT32 =>
        if ¬ (document.get fld.name).isNumInt then .err 400 ("Field `" ++ fld.name ++ "` must be an int32.")
        else if (document.get fld.name).getInt > INT32_MAX then .err 400 ("Field `" ++ fld.name ++ "` exceeds maximum value of int32.")
        else .ok ()
    | .INT64 =>
        if ¬ (document.get fld.name).isNumInt then .err 400 ("Field `" ++ fld.name ++ "` must be an int64.")
        else .ok ()
    | .FLOAT =>
        if ¬ (document.get fld.name).isNum then .err 400 ("Field `" ++ fld.name ++ "` must be a float.")
        else .ok ()
    | .STRING_ARRAY =>
        if ¬ (document.get fld.name).isArr then .err 400 ("Field `" ++ fld.name ++ "` must be a string array.")
        else if (document.get fld.name).size > 0 ∧ ¬ ((document.get fld.name).atIdx 0).isString then .err 400 ("Field `" ++ fld.name ++ "` must be a string array.")
        else .ok ()
    | .INT32_ARRAY =>
        if ¬ (document.get fld.name).isArr then .err 400 ("Field `" ++ fld.name ++ "` must be an int32 array.")
        else if (document.get fld.name).size > 0 ∧ ¬ ((document.get fld.name).atIdx 0).isNumInt then .err 400 ("Field `" ++ fld.name ++ "` must be an int32 array.")
        else .ok ()
    | .INT64_ARRAY =>
        if ¬ (document.get fld.name).isArr then .err 400 ("Field `" ++ fld.name ++ "` must be an int64 array.")
        else if (document.get fld.name).size > 0 ∧ ¬ ((document.get fld.name).atIdx 0).isNumInt then .err 400 ("Field `" ++ fld.name ++ "` must be an int64 array.")
        else .ok ()
    | .FLOAT_ARRAY =>
        if ¬ (document.get fld.name).isArr then .err 400 ("Field `" ++ fld.name ++ "` must be a float array.")
        else if (document.get fld.name).size > 0 ∧ ¬ ((document.get fld.name).atIdx 0).isNumFloat then .err 400 ("Field `" ++ fld.name ++ "` must be a float array.")
        else .ok ()

/-- The search-schema loop (first failing field wins). -/
def checkSearchFields (document : Json) : List Field → Opt Unit
  | [] => .ok ()
  | fld :: rest =>
      match checkSearchField document fld with
      | .ok _ => checkSearchFields document rest
      | .err c m => .err c m

/-- One iteration of the facet-schema loop of
`Collection::validate_index_in_memory` (lines 169-192). -/
def checkFacetField (document : Json) (fld : Field) : Opt Unit :=
  if document.count fld.name = 0 then
    .err 400 ("Field `" ++ fld.name ++ "` has been declared as a facet field in the schema, but is not found in the document.")
  else
    match fld.type with
    | .STRING =>
        if ¬ (document.get fld.name).isString then .err 400 ("Facet field `" ++ fld.name ++ "` must be a string.")
        else .ok ()
    | .STRING_ARRAY =>
        if ¬ (document.get fld.name).isArr then .err 400 ("Facet field `" ++ fld.name ++ "` must be a string array.")
        else if (document.get fld.name).size > 0 ∧ ¬ ((document.get fld.name).atIdx 0).isString then .err 400 ("Facet field `" ++ fld.name ++ "` must be a string array.")
        else .ok ()
    | _ => .err 400 ("Facet field `" ++ fld.name ++ "` must be a string or a string[].")

/-- The facet-schema loop. -/
def checkFacetFields (document : Json) : List Field → Opt Unit
  | [] => .ok ()
  | fld :: rest =>
      match checkFacetField document fld with
      | .ok _ => checkFacetFields document rest
      | .err c m => .err c m

/-- `Collection::validate_index_in_memory`: token-ranking checks, then the
search-schema loop, then the facet-schema loop. -/
def Collection.validate_index_in_memory (cfg : CollectionCfg) (document : Json) : Opt Unit :=
  match checkTokenRanking cfg document with
  | .err c m => .err c m
  | .ok _ =>
      match checkSearchFields document (search_schema cfg) with
      | .err c m => .err c m
      | .ok _ => checkFacetFields document (facet_schema cfg)

/-- `Collection::index_in_memory`: validate; compute the ranking signal
`points` (float values go through the order-preserving int32 encoding);
hand the document to shard `seq_id % 4` (`Index::index_in_memory`, outside
the translated file, touches only shard-internal state); then increment
`num_documents`. -/
def Collection.index_in_memory (cfg : CollectionCfg) (s : CollectionState)
    (document : Json) (seq_id : Nat) : CollectionState × Opt Unit :=
  match Collection.validate_index_in_memory cfg document with
  | .err c m => (s, .err c m)
  | .ok _ =>
      let _points : Int :=
        if cfg.token_ranking_field ≠ "" then
          match document.get cfg.token_ranking_field with
          | .numFloat bits => encodeFloat bits
          | v => v.getInt
        else 0
      ({ s with num_documents := s.num_documents + 1 }, .ok ())

/-- `Collection::add`: parse (a `none` input models malformed JSON), draw a
seq_id (incrementing the in-memory and persisted counters), fill in or check
the `id` field, index in memory, then persist `doc_id_key -> seq_id` and
`seq_id_key -> document.dump()`. -/
def Collection.add (cfg : CollectionCfg) (s : CollectionState)
    (parsed : Option Json) : CollectionState × Opt String :=
  match parsed with
  | none => (s, .err 400 "Bad JSON.")
  | some document0 =>
      let pr := Collection.get_next_seq_id cfg s
      let seq_id := pr.1
      let s1 := pr.2
      let seq_id_str := toString seq_id
      let finish : Json → CollectionState × Opt String := fun document =>
        let doc_id := (document.get "id").asString
        match Collection.index_in_memory cfg s1 document seq_id with
        | (s2, .err c m) => (s2, .err c m)
        | (s2, .ok _) =>
            let st3 := storeInsert s2.store (get_doc_id_key cfg.collection_id doc_id) (.sv seq_id_str)
            let st4 := storeInsert st3 (get_seq_id_key cfg.collection_id seq_id) (.jv document)
            ({ s2 with store := st4 }, .ok doc_id)
      if document0.count "id" = 0 then
        finish (document0.setKey "id" (.str seq_id_str))
      else if ¬ (document0.get "id").isString then
        (s1, .err 400 "Document\x27s `id` field should be a string.")
      else
        finish document0

/-- `std::stol` on the decimal seq_id string stored under a doc_id key. -/
def stolD (v : StoreVal) : Nat :=
  match v with
  | .sv s => s.toNat?.getD 0
  | .nv n => n
  | .jv _ => 0

/-- `Collection::remove`: look up the seq_id under the doc_id key (404 when
absent), fetch and parse the stored document (500 when missing or not a
stored document), drop the seq_id from every shard (`Index::remove`,
outside the translated file, touches only shard-internal state), optionally
evict both keys from the Store, and decrement `num_documents`. -/
def Collection.remove (cfg : CollectionCfg) (s : CollectionState)
    (id : String) (remove_from_store : Bool) : CollectionState × Opt String :=
  match storeGet s.store (get_doc_id_key cfg.collection_id id) with
  | none => (s, .err 404 ("Could not find a document with id: " ++ id))
  | some v =>
      let seq_id := stolD v
      match storeGet s.store (get_seq_id_key cfg.collection_id seq_id) with
      | some (.jv _document) =>
          let st :=
            if remove_from_store then
              storeRemove (storeRemove s.store (get_doc_id_key cfg.collection_id id))
                (get_seq_id_key cfg.collection_id seq_id)
            else s.store
          ({ s with store := st, num_documents := s.num_documents - 1 }, .ok id)
      | _ => (s, .err 500 "Error while parsing stored document.")

/-- Modelled from the spec: a `Topster<100>::KV` ranking entry (topster.h,
outside src/): uint64 match_score, int64 primary/secondary sort attributes,
uint32 document seq_id key, and the query-plan index used for highlighting. -/
structure KV where
  match_score : Nat
  primary_attr : Int
  secondary_attr : Int
  key : Nat
  query_index : Nat

/-- Modelled from the spec: a `sort_by` request entry (field name and an
ASC/DESC order string). -/
structure SortBy where
  name : String
  order : String

/-- Modelled from the spec: the merged accumulator contents that the
`Index::search` fan-out loop (outside the translated file) deposits into
`Collection::search`: the flat `(field_order_index, KV)` vector
`field_order_kvs`, the matched-id count `all_result_ids_len`, and the
per-facet-field `result_map` of value counts. -/
structure ShardOut where
  field_order_kvs : List (Int × KV)
  all_result_ids_len : Nat
  facet_result : String → List (String × Nat)

/-- `StringUtils::toupper` (ASCII). -/
def toUpperAscii (s : String) : String := s.map Char.toUpper

/-- MAX_RESULTS (collection.h). -/
def MAX_RESULTS : Nat := 500

/-- Descending lexicographic comparison of equal-length integer tuples:
`lexGeB a b` is true when `a ≥ b` in lexicographic order. -/
def lexGeB : List Int → List Int → Bool
  | [], [] => true
  | [], _ :: _ => false
  | _ :: _, [] => true
  | a :: as, b :: bs => if b < a then true else if a < b then false else lexGeB as bs

/-- The composite ranking tuple `(match_score, primary_attr, secondary_attr,
field_order_index, seq_id)` of a `field_order_kvs` entry. -/
def kvTuple (p : Int × KV) : List Int :=
  [(p.2.match_score : Int), p.2.primary_attr, p.2.secondary_attr, p.1, (p.2.key : Int)]

/-- `a` ranks at least as high as `b` (the descending order `std::sort`
establishes with the strict tuple comparator). -/
def kvGe (a b : Int × KV) : Prop := lexGeB (kvTuple a) (kvTuple b) = true

instance : DecidableRel kvGe := fun a b => by
  unfold kvGe
  infer_instance

/-- The descending sort of `field_order_kvs` (line 306; `std::sort` with the
strict tuple comparator — modelled by an insertion sort producing a
descending-sorted permutation). -/
def sortKvs (l : List (Int × KV)) : List (Int × KV) := List.insertionSort kvGe l

/-- Facet count pairs ordered by count descending (line 427). -/
def countGe (a b : String × Nat) : Prop := b.2 ≤ a.2

instance : DecidableRel countGe := fun a b => by
  unfold countGe
  infer_instance

/-- The `facet_counts` array (lines 413-441): per facet field, the top 10
values by count. -/
def facetCountsJson (facet_fields : List String) (shard : ShardOut) : Json :=
  Json.arr (facet_fields.map (fun fname =>
    let pairs := List.insertionSort countGe (shard.facet_result fname)
    Json.obj [("field_name", Json.str fname),
      ("counts", Json.arr ((pairs.take 10).map (fun kv =>
        Json.obj [("value", Json.str kv.1), ("count", Json.numInt kv.2)])))]))

/-- The search-field validation loop of `Collection::search` (lines 232-249). -/
def validateSearchFieldNames (cfg : CollectionCfg) : List String → Opt Unit
  | [] => .ok ()
  | n :: rest =>
      match schemaFind (search_schema cfg) n with
      | none => .err 400 ("Could not find a field named `" ++ n ++ "` in the schema.")
      | some f =>
          if f.type ≠ FieldType.STRING ∧ f.type ≠ FieldType.STRING_ARRAY then
            .err 400 ("Field `" ++ n ++ "` should be a string or a string array.")
          else if f.facet then
            .err 400 ("Field `" ++ n ++ "` is a faceted field - it cannot be used as a query field.")
          else validateSearchFieldNames cfg rest

/-- The facet-field validation loop of `Collection::search` (lines 252-258). -/
def validateFacetFieldNames (cfg : CollectionCfg) : List String → Opt Unit
  | [] => .ok ()
  | n :: rest =>
      match schemaFind (facet_schema cfg) n with
      | none => .err 400 ("Could not find a facet field named `" ++ n ++ "` in the schema.")
      | some _ => validateFacetFieldNames cfg rest

/-- The sort-field validation/standardization loop of `Collection::search`
(lines 262-279). -/
def validateSortFields (cfg : CollectionCfg) : List SortBy → Opt (List SortBy)
  | [] => .ok []
  | sf :: rest =>
      match schemaFind (sort_schema cfg) sf.name with
      | none => .err 400 ("Could not find a field named `" ++ sf.name ++ "` in the schema for sorting.")
      | some _ =>
          let so := toUpperAscii sf.order
          if so ≠ "ASC" ∧ so ≠ "DESC" then
            .err 400 ("Order for field` " ++ sf.name ++ "` should be either ASC or DESC.")
          else
            match validateSortFields cfg rest with
            | .ok l => .ok ({ name := sf.name, order := so } :: l)
            | .err c m => .err c m

/-- Per-hit document decoration (lines 340-408): the field that matched is
`search_fields[search_fields.size() - field_order_index]`; when it is a
scalar string field, a `_highlight` object holding the snippet for that
field is attached to the document.  The snippet string itself is computed
from posting-list offsets and `MatchScore::match_score` (match_score.h and
the art trie, outside the translated file) and is abstracted by the `snip`
argument. -/
def highlightedDoc (cfg : CollectionCfg) (search_fields : List String)
    (snip : Int × KV → Json → String) (fkv : Int × KV) (document : Json) : Json :=
  let field_name := search_fields.getD ((search_fields.length : Int) - fkv.1).toNat ""
  match schemaFind (search_schema cfg) field_name with
  | some f =>
      if f.type = FieldType.STRING then
        document.setKey "_highlight" (Json.obj [(field_name, Json.str (snip fkv document))])
      else document
  | none => document

/-- The per-page hit loop (lines 326-411): fetch each ranked document from
the Store by its seq_id key, fail the whole search with 500 when the stored
body does not parse, otherwise decorate and emit it. -/
def emitHits (cfg : CollectionCfg) (s : CollectionState) (search_fields : List String)
    (snip : Int × KV → Json → String) : List (Int × KV) → Opt (List Json)
  | [] => .ok []
  | fkv :: rest =>
      match storeGet s.store (get_seq_id_key cfg.collection_id fkv.2.key) with
      | some (.jv document) =>
          let doc2 := highlightedDoc cfg search_fields snip fkv document
          match emitHits cfg s search_fields snip rest with
          | .ok hits => .ok (doc2 :: hits)
          | .err c m => .err c m
      | _ => .err 500 "Error while parsing stored document."

/-- `Collection::search`: validate search/facet/sort fields and pagination,
fan out to the shards (their merged accumulator output is the `shard`
argument; the query string, filter, typo budget, token order and prefix
flag are consumed only inside `Index::search`), sort the merged entries
descending by the composite tuple, and emit the requested page together
with `found` and `facet_counts`.  When the page slice is empty the function
returns early, before the `facet_counts` key is added. -/
def Collection.search (cfg : CollectionCfg) (s : CollectionState) (query : String)
    (search_fields : List String) (facet_fields : List String)
    (sort_fields : List SortBy) (per_page : Nat) (page : Nat)
    (shard : ShardOut) (snip : Int × KV → Json → String) : Opt Json :=
  match validateSearchFieldNames cfg search_fields with
  | .err c m => .err c m
  | .ok _ =>
  match validateFacetFieldNames cfg facet_fields with
  | .err c m => .err c m
  | .ok _ =>
  match validateSortFields cfg sort_fields with
  | .err c m => .err c m
  | .ok _sort_fields_std =>
  if page < 1 then .err 422 "Page must be an integer of value greater than 0."
  else if page * per_page > MAX_RESULTS then
    .err 422 ("Only the first " ++ toString MAX_RESULTS ++ " results are available.")
  else
    let kvs := sortKvs shard.field_order_kvs
    let found : Int := shard.all_result_ids_len
    let start_result_index := (page - 1) * per_page
    if kvs.length ≤ start_result_index then
      .ok (Json.obj [("hits", Json.arr []), ("found", Json.numInt found)])
    else
      let end_excl := min (page * per_page) kvs.length
      let slice := (kvs.drop start_result_index).take (end_excl - start_result_index)
      match emitHits cfg s search_fields snip slice with
      | .err c m => .err c m
      | .ok hits =>
          .ok (Json.obj [("hits", Json.arr hits), ("found", Json.numInt found),
            ("facet_counts", facetCountsJson facet_fields shard)])

/-- A mutating collection operation: an `add` (with its parsed input, `none`
for malformed JSON) or a `remove` with its `remove_from_store` flag. -/
inductive CollOp where
  | addDoc (input : Option Json)
  | removeDoc (id : String) (remove_from_store : Bool)

/-- The state after one operation. -/
def applyOp (cfg : CollectionCfg) (s : CollectionState) : CollOp → CollectionState
  | .addDoc input => (Collection.add cfg s input).1
  | .removeDoc id rfs => (Collection.remove cfg s id rfs).1

/-- The state after a sequence of operations. -/
def applyOps (cfg : CollectionCfg) : List CollOp → CollectionState → CollectionState
  | [], s => s
  | op :: rest, s => applyOps cfg rest (applyOp cfg s op)

/-- Whether a Store key is a `doc_id_key` of this collection (starts with the
`<collection_id>_$DI_` tag). -/
def isDocKey (cfg : CollectionCfg) (k : Key) : Bool :=
  k.take (doc_tag cfg.collection_id).length == doc_tag cfg.collection_id

/-- The number of `doc_id_key` entries present in the Store. -/
def docKeyCount (cfg : CollectionCfg) (st : Store) : Nat :=
  (st.filter (fun e => isDocKey cfg e.1)).length

/-- The Store holds at most one entry per key. -/
def keysNodup (st : Store) : Prop := (st.map (fun e => e.1)).Nodup

/-- The C3 invariant: `num_documents` equals the number of `doc_id_key`
entries in the Store. -/
def docsInvariant (cfg : CollectionCfg) (s : CollectionState) : Prop :=
  s.num_documents = docKeyCount cfg s.store

/-- The conditions under which one operation preserves `docsInvariant`:
an `add` must be a JSON object (or malformed) and, when it succeeds, its
document id must not already be present in the Store; a `remove` must evict
from the Store. -/
def opSafe (cfg : CollectionCfg) (s : CollectionState) : CollOp → Bool
  | .addDoc input =>
      (match Collection.add cfg s input with
       | (_, .ok d) => (storeGet s.store (get_doc_id_key cfg.collection_id d)).isNone
       | _ => true) &&
      (match input with
       | some d => d.isObj
       | none => true)
  | .removeDoc _ rfs => rfs

/-- `opSafe` along a whole trace. -/
def safeTrace (cfg : CollectionCfg) : CollectionState → List CollOp → Bool
  | _, [] => true
  | s, op :: rest => opSafe cfg s op && safeTrace cfg (applyOp cfg s op) rest

/-- A schema with a single scalar string field, no facets, no ranking
field (fixture for concrete instances). -/
def cfgTitle : CollectionCfg :=
  { name := "c", collection_id := 0,
    fields := [{ name := "title", type := .STRING, facet := false }],
    token_ranking_field := "" }

/-- Single-field schema fixture parameterized by type and facet flag. -/
def cfgOf (fname : String) (t : FieldType) (fc : Bool) : CollectionCfg :=
  { name := "c", collection_id := 0,
    fields := [{ name := fname, type := t, facet := fc }],
    token_ranking_field := "" }

/-- A fresh collection state with an empty Store. -/
def s0 : CollectionState := { next_seq_id := 0, num_documents := 0, store := [] }

/-- A well-formed document for `cfgTitle` with id "a". -/
def docA : Json := Json.obj [("id", Json.str "a"), ("title", Json.str "x")]

/-- A document whose `id` is not a string. -/
def docBadId : Json := Json.obj [("id", Json.numInt 3), ("title", Json.str "x")]

/-- Shard output with no matches (what the fan-out produces on an empty
collection). -/
def shardEmpty : ShardOut :=
  { field_order_kvs := [], all_result_ids_len := 0, facet_result := fun _ => [] }

/-- A trivial snippet function for concrete instances. -/
def snip0 : Int × KV → Json → String := fun _ _ => ""

/-- A ranking entry for seq_id 7 matched in the first (only) search field. -/
def kv7 : Int × KV :=
  (1, { match_score := 10, primary_attr := 0, secondary_attr := 0, key := 7, query_index := 0 })

/-- Shard output with the single entry `kv7`. -/
def shardOne : ShardOut :=
  { field_order_kvs := [kv7], all_result_ids_len := 1, facet_result := fun _ => [] }

/-- A stored document for seq_id 7. -/
def docHello : Json := Json.obj [("title", Json.str "hello")]

/-- A collection state whose Store holds `docHello` under the seq_id key 7. -/
def sSeven : CollectionState :=
  { next_seq_id := 8, num_documents := 1,
    store := [(get_seq_id_key 0 7, .jv docHello)] }

/- ------------------------------------------------------------------ -/
/- Theorems.                                                           -/
/- ------------------------------------------------------------------ -/

/-- Prepending a common byte string preserves lexicographic order. -/
theorem lex_append_left (p x y : Key) (h : List.Lex (· < ·) x y) :
    List.Lex (· < ·) (p ++ x) (p ++ y) := by
  induction p with
  | nil => exact h
  | cons a p ih => exact List.Lex.cons ih

/-- The four big-endian bytes of `a < b` (both below 2^32) compare
lexicographically in the numeric order. -/
theorem seq_bytes_lex (a b : Nat) (hb : b < 2 ^ 32) (hab : a < b) :
    List.Lex (· < ·)
      [(a >>> 24) &&& 255, (a >>> 16) &&& 255, (a >>> 8) &&& 255, a &&& 255]
      [(b >>> 24) &&& 255, (b >>> 16) &&& 255, (b >>> 8) &&& 255, b &&& 255] := by
  have h255 : (255 : Nat) = 2 ^ 8 - 1 := by norm_num
  simp only [h255, Nat.and_pow_two_sub_one_eq_mod, Nat.shiftRight_eq_div_pow]
  rcases Nat.lt_trichotomy (a / 2 ^ 24 % 2 ^ 8) (b / 2 ^ 24 % 2 ^ 8) with h1 | h1 | h1
  · exact List.Lex.rel h1
  · rw [h1]
    apply List.Lex.cons
    rcases Nat.lt_trichotomy (a / 2 ^ 16 % 2 ^ 8) (b / 2 ^ 16 % 2 ^ 8) with h2 | h2 | h2
    · exact List.Lex.rel h2
    · rw [h2]
      apply List.Lex.cons
      rcases Nat.lt_trichotomy (a / 2 ^ 8 % 2 ^ 8) (b / 2 ^ 8 % 2 ^ 8) with h3 | h3 | h3
      · exact List.Lex.rel h3
      · rw [h3]
        apply List.Lex.cons
        exact List.Lex.rel (by omega)
      · exact absurd h3 (by omega)
    · exact absurd h2 (by omega)
  · exact absurd h1 (by omega)

/-- C5: the seq_id key encoding is monotone in byte order: for 32-bit
seq_ids `a < b`, `get_seq_id_key(a)` is lexicographically smaller than
`get_seq_id_key(b)`; the keys share the collection prefix and differ only
in the big-endian 4-byte tail. -/
theorem get_seq_id_key_monotone (collection_id a b : Nat)
    (hb : b < 2 ^ 32) (hab : a < b) :
    List.Lex (· < ·) (get_seq_id_key collection_id a) (get_seq_id_key collection_id b) := by
  unfold get_seq_id_key
  exact lex_append_left _ _ _ (seq_bytes_lex a b hb hab)

/-- Witness for C5 at `collection_id = 1`, `a = 2`, `b = 3`. -/
theorem get_seq_id_key_monotone_w :
    (3 : Nat) < 2 ^ 32 ∧ (2 : Nat) < 3 ∧
      List.Lex (· < ·) (get_seq_id_key 1 2) (get_seq_id_key 1 3) :=
  ⟨by norm_num, by norm_num, get_seq_id_key_monotone 1 2 3 (by norm_num) (by norm_num)⟩

/-- XOR with a single high bit adds it. -/
theorem xor_two_pow_of_lt {u n : Nat} (h : u < 2 ^ n) : u ^^^ 2 ^ n = u + 2 ^ n := by
  apply Nat.eq_of_testBit_eq
  intro i
  rw [Nat.testBit_xor, Nat.testBit_two_pow]
  rcases Nat.lt_trichotomy i n with hi | hi | hi
  · rw [Nat.add_comm, Nat.testBit_two_pow_add_gt hi]
    simp [show n ≠ i by omega]
  · subst hi
    rw [Nat.add_comm, Nat.testBit_two_pow_add_eq, Nat.testBit_lt_two_pow h]
    simp
  · have hlt : u + 2 ^ n < 2 ^ i := by
      have h1 : 2 ^ (n + 1) ≤ 2 ^ i := Nat.pow_le_pow_right (by norm_num) hi
      have h2 : u + 2 ^ n < 2 ^ (n + 1) := by
        have := Nat.pow_succ 2 n
        omega
      omega
    rw [Nat.testBit_lt_two_pow hlt,
      Nat.testBit_lt_two_pow (lt_of_lt_of_le h (Nat.pow_le_pow_right (by norm_num) hi.le))]
    simp [show n ≠ i by omega]

/-- XOR with an all-ones mask complements. -/
theorem xor_ones_of_lt {u n : Nat} (h : u < 2 ^ n) : u ^^^ (2 ^ n - 1) = 2 ^ n - 1 - u := by
  apply Nat.eq_of_testBit_eq
  intro i
  rw [Nat.testBit_xor, Nat.testBit_two_pow_sub_one,
    show 2 ^ n - 1 - u = 2 ^ n - (u + 1) by omega,
    Nat.testBit_two_pow_sub_succ h]
  rcases Nat.lt_or_ge i n with hi | hi
  · simp [hi]
  · have hu : u.testBit i = false :=
      Nat.testBit_lt_two_pow (lt_of_lt_of_le h (Nat.pow_le_pow_right (by norm_num) hi))
    simp [hu, show ¬ i < n by omega]

/-- The XOR step of the float encoding, in closed form. -/
theorem encode_xor_eq_keyOf (u : Nat) (hu : u < 2 ^ 32) :
    u ^^^ (asr31 u ||| 2 ^ 31) = keyOf u := by
  unfold asr31 keyOf
  by_cases h : u < 2 ^ 31
  · rw [if_pos h, if_pos h, show (0 : Nat) ||| 2 ^ 31 = 2 ^ 31 by decide,
      xor_two_pow_of_lt h]
  · rw [if_neg h, if_neg h, show (2 ^ 32 - 1 : Nat) ||| 2 ^ 31 = 2 ^ 32 - 1 by decide,
      xor_ones_of_lt hu]

/-- On finite patterns the whole encoding is `keyOf u - INT32_MAX` read as a
signed integer (the final subtract-and-negate never wraps out of order on
the finite range). -/
theorem encodeFloat_eq (u : Nat) (hu : u < 2 ^ 32) (hk : keyOf u ≤ 0xFF7FFFFF) :
    encodeFloat u = (keyOf u : Int) - (2 ^ 31 - 1) := by
  have hx := encode_xor_eq_keyOf u hu
  simp only [encodeFloat, encodeFloatBits, hx, intOfBits, bitsOfInt]
  generalize keyOf u = k at hk ⊢
  split_ifs <;> omega

/-- The scaled magnitude of a float bit pattern is strictly monotone in the
pattern (exponent-mantissa bits compare like the magnitude they denote). -/
theorem magZ_strictMono {r1 r2 : Nat} (h : r1 < r2) : magZ r1 < magZ r2 := by
  unfold magZ
  by_cases h1 : r1 / 2 ^ 23 = 0 <;> by_cases h2 : r2 / 2 ^ 23 = 0
  · rw [if_pos h1, if_pos h2]
    exact_mod_cast h
  · rw [if_pos h1, if_neg h2]
    have hr1 : (r1 : Int) < 2 ^ 23 := by exact_mod_cast (by omega : r1 < 2 ^ 23)
    have hp : (0 : Int) < 2 ^ (r2 / 2 ^ 23 - 1) := pow_pos (by norm_num) _
    have hm2 : (0 : Int) ≤ ((r2 % 2 ^ 23 : Nat) : Int) := by positivity
    nlinarith
  · exact absurd h1 (by omega)
  · rw [if_neg h1, if_neg h2]
    have hle : r1 / 2 ^ 23 ≤ r2 / 2 ^ 23 := Nat.div_le_div_right h.le
    rcases eq_or_lt_of_le hle with he | he
    · rw [← he]
      have hm : ((r1 % 2 ^ 23 : Nat) : Int) < ((r2 % 2 ^ 23 : Nat) : Int) := by
        exact_mod_cast (by omega : r1 % 2 ^ 23 < r2 % 2 ^ 23)
      have hp : (0 : Int) < 2 ^ (r1 / 2 ^ 23 - 1) := pow_pos (by norm_num) _
      nlinarith
    · have e1p : (2 : Int) ^ (r1 / 2 ^ 23) = 2 ^ (r1 / 2 ^ 23 - 1) * 2 := by
        rw [← pow_succ]
        congr 1
        omega
      have step1 : ((2 ^ 23 : Int) + (r1 % 2 ^ 23 : Nat)) * 2 ^ (r1 / 2 ^ 23 - 1)
          < 2 ^ 23 * 2 ^ (r1 / 2 ^ 23) := by
        have hm1 : ((r1 % 2 ^ 23 : Nat) : Int) < 2 ^ 23 := by
          exact_mod_cast Nat.mod_lt r1 (by norm_num)
        have hp : (0 : Int) < 2 ^ (r1 / 2 ^ 23 - 1) := pow_pos (by norm_num) _
        nlinarith
      have step2 : (2 ^ 23 : Int) * 2 ^ (r1 / 2 ^ 23) ≤ 2 ^ 23 * 2 ^ (r2 / 2 ^ 23 - 1) := by
        have : (2 : Int) ^ (r1 / 2 ^ 23) ≤ 2 ^ (r2 / 2 ^ 23 - 1) :=
          pow_le_pow_right₀ (by norm_num) (by omega)
        nlinarith
      have step3 : (2 ^ 23 : Int) * 2 ^ (r2 / 2 ^ 23 - 1)
          ≤ ((2 ^ 23 : Int) + (r2 % 2 ^ 23 : Nat)) * 2 ^ (r2 / 2 ^ 23 - 1) := by
        have hm2 : (0 : Int) ≤ ((r2 % 2 ^ 23 : Nat) : Int) := by positivity
        have hp : (0 : Int) < 2 ^ (r2 / 2 ^ 23 - 1) := pow_pos (by norm_num) _
        nlinarith
      linarith

/-- The scaled magnitude is non-negative. -/
theorem magZ_nonneg (r : Nat) : 0 ≤ magZ r := by
  unfold magZ
  split
  · positivity
  · positivity

/-- Order of scaled magnitudes reflects onto the patterns. -/
theorem lt_of_magZ_lt {r1 r2 : Nat} (h : magZ r1 < magZ r2) : r1 < r2 := by
  by_contra hc
  push_neg at hc
  rcases eq_or_lt_of_le hc with he | hl
  · rw [he] at h
    exact lt_irrefl _ h
  · exact absurd h (not_lt.mpr (magZ_strictMono hl).le)

/-- The XOR key is monotone in the represented float value. -/
theorem keyOf_mono (a b : Nat) (ha : a < 2 ^ 32) (hb : b < 2 ^ 32)
    (h : floatValZ a < floatValZ b) : keyOf a < keyOf b := by
  unfold floatValZ at h
  unfold keyOf
  by_cases sa : a < 2 ^ 31 <;> by_cases sb : b < 2 ^ 31
  · rw [if_pos sa, if_pos sb] at h ⊢
    rw [Nat.mod_eq_of_lt sa, Nat.mod_eq_of_lt sb] at h
    have := lt_of_magZ_lt h
    omega
  · rw [if_pos sa, if_neg sb] at h
    have h1 := magZ_nonneg (a % 2 ^ 31)
    have h2 := magZ_nonneg (b % 2 ^ 31)
    linarith
  · rw [if_neg sa, if_pos sb]
    omega
  · rw [if_neg sa, if_neg sb] at h ⊢
    have h3 : magZ (b % 2 ^ 31) < magZ (a % 2 ^ 31) := by linarith
    have := lt_of_magZ_lt h3
    omega

/-- Finite patterns keep the XOR key below the wrap boundary. -/
theorem keyOf_le_finite (u : Nat) (hu : u < 2 ^ 32) (hf : u % 2 ^ 31 < 0x7F800000) :
    keyOf u ≤ 0xFF7FFFFF := by
  unfold keyOf
  split <;> omega

/-- C4: the float-to-int32 ranking encoding of `index_in_memory`
(reinterpret the IEEE-754 bits, XOR with `(x >> 31) | INT32_MIN`, subtract
from INT32_MAX and negate) is strictly monotone: for finite float bit
patterns whose values satisfy x < y, the encodings compare the same way as
signed 32-bit integers. -/
theorem encodeFloat_strictly_monotone (a b : Nat) (ha : a < 2 ^ 32) (hb : b < 2 ^ 32)
    (hfa : a % 2 ^ 31 < 0x7F800000) (hfb : b % 2 ^ 31 < 0x7F800000)
    (hv : floatValZ a < floatValZ b) : encodeFloat a < encodeFloat b := by
  rw [encodeFloat_eq a ha (keyOf_le_finite a ha hfa),
    encodeFloat_eq b hb (keyOf_le_finite b hb hfb)]
  have := keyOf_mono a b ha hb hv
  omega

set_option maxRecDepth 4000

/-- Witness for C4 at the bit patterns of 1.0f and 2.0f. -/
theorem encodeFloat_strictly_monotone_w :
    floatValZ 0x3F800000 < floatValZ 0x40000000 ∧
      encodeFloat 0x3F800000 < encodeFloat 0x40000000 :=
  ⟨by decide,
   encodeFloat_strictly_monotone 0x3F800000 0x40000000 (by decide) (by decide)
     (by decide) (by decide) (by decide)⟩

/-- A lookup for a different key passes through the filter step of an
upsert. -/
theorem find?_filter_ne (st : Store) (k k' : Key) (h : k' ≠ k) :
    (st.filter (fun e => ¬ (e.1 = k))).find? (fun e => e.1 == k') =
      st.find? (fun e => e.1 == k') := by
  induction st with
  | nil => rfl
  | cons e rest ih =>
      rw [List.filter_cons]
      by_cases he : e.1 = k
      · have hd : (decide ¬ (e.1 = k)) = false := by simp [he]
        have hne : ¬ (((fun e => e.1 == k') (e : Key × StoreVal)) = true) := by
          simp only [beq_iff_eq, he]
          exact fun hh => h hh.symm
        rw [hd, if_neg (by simp), @List.find?_cons_of_neg _ (fun e => e.1 == k') e rest hne]
        exact ih
      · have hd : (decide ¬ (e.1 = k)) = true := by simp [he]
        rw [hd, if_pos rfl]
        by_cases he' : ((fun e => e.1 == k') (e : Key × StoreVal)) = true
        · rw [@List.find?_cons_of_pos _ (fun e => e.1 == k') e _ he',
            @List.find?_cons_of_pos _ (fun e => e.1 == k') e rest he']
        · rw [@List.find?_cons_of_neg _ (fun e => e.1 == k') e _ he',
            @List.find?_cons_of_neg _ (fun e => e.1 == k') e rest he']
          exact ih

/-- `Store::insert` leaves other keys untouched. -/
theorem storeGet_insert_ne (st : Store) (k k' : Key) (v : StoreVal) (h : k' ≠ k) :
    storeGet (storeInsert st k v) k' = storeGet st k' := by
  unfold storeGet storeInsert
  have hk : ((k, v).1 == k') = false := by
    simp only [beq_eq_false_iff_ne]
    exact fun hh => h hh.symm
  rw [List.find?_cons_of_neg _ (by simp [hk]), find?_filter_ne st k k' h]

/-- `Store::increment` leaves other keys untouched. -/
theorem storeGet_increment_ne (st : Store) (k k' : Key) (d : Nat) (h : k' ≠ k) :
    storeGet (storeIncrement st k d) k' = storeGet st k' := by
  unfold storeIncrement
  rcases storeGet st k with _ | v
  · exact storeGet_insert_ne st k k' _ h
  · rcases v with s | j | n <;> exact storeGet_insert_ne st k k' _ h

/-- C1 (amended): when `add` fails with a 400 input-validation error,
`num_documents` and every Store entry other than the persisted counter are
unchanged; `next_seq_id` and the persisted counter are either unchanged
(malformed JSON) or incremented by the seq_id draw that precedes the id and
schema checks. -/
theorem add_400_no_doc_mutation (cfg : CollectionCfg) (s : CollectionState)
    (input : Option Json)
    (hobj : ∀ d, input = some d → d.isObj = true)
    (m : String) (h : (Collection.add cfg s input).2 = .err 400 m) :
    (Collection.add cfg s input).1.num_documents = s.num_documents ∧
    (∀ k, k ≠ get_next_seq_id_key cfg.name →
      storeGet (Collection.add cfg s input).1.store k = storeGet s.store k) ∧
    ((Collection.add cfg s input).1.next_seq_id = s.next_seq_id ∨
      (Collection.add cfg s input).1.next_seq_id = (s.next_seq_id + 1) % 2 ^ 32) := by
  rcases input with _ | d
  · exact ⟨rfl, fun k hk => rfl, Or.inl rfl⟩
  · have hstate : (Collection.add cfg s (some d)).1 =
        { s with next_seq_id := (s.next_seq_id + 1) % 2 ^ 32,
                 store := storeIncrement s.store (get_next_seq_id_key cfg.name) 1 } := by
      by_cases h1 : d.count "id" = 0
      · rcases hv : Collection.validate_index_in_memory cfg
            (d.setKey "id" (.str (toString s.next_seq_id))) with v | ⟨c', m'⟩
        · simp [Collection.add, Collection.get_next_seq_id, Collection.index_in_memory,
            h1, hv] at h
        · simp [Collection.add, Collection.get_next_seq_id, Collection.index_in_memory,
            h1, hv]
      · by_cases h2 : (d.get "id").isString
        · rcases hv : Collection.validate_index_in_memory cfg d with v | ⟨c', m'⟩
          · simp [Collection.add, Collection.get_next_seq_id, Collection.index_in_memory,
              h1, h2, hv] at h
          · simp [Collection.add, Collection.get_next_seq_id, Collection.index_in_memory,
              h1, h2, hv]
        · simp [Collection.add, Collection.get_next_seq_id, h1, h2]
    refine ⟨by rw [hstate], fun k hk => by rw [hstate]; exact storeGet_increment_ne _ _ _ _ hk,
      Or.inr (by rw [hstate])⟩

/-- C1 counterexample: an `add` whose document has a non-string `id` fails
with 400 but has already incremented `next_seq_id` and created the persisted
counter entry, so the failure is not mutation-free. -/
theorem add_400_counterexample :
    (Collection.add cfgTitle s0 (some docBadId)).2 =
        Opt.err 400 "Document\x27s `id` field should be a string." ∧
    (Collection.add cfgTitle s0 (some docBadId)).1.next_seq_id = 1 ∧
    s0.next_seq_id = 0 ∧
    storeGet (Collection.add cfgTitle s0 (some docBadId)).1.store
        (get_next_seq_id_key cfgTitle.name) = some (.nv 1) ∧
    storeGet s0.store (get_next_seq_id_key cfgTitle.name) = none :=
  ⟨rfl, rfl, rfl, rfl, rfl⟩

/-- Witness for the amended C1 theorem at the non-string-id document. -/
theorem add_400_no_doc_mutation_w :
    (Collection.add cfgTitle s0 (some docBadId)).2 =
        Opt.err 400 "Document\x27s `id` field should be a string." ∧
    ((Collection.add cfgTitle s0 (some docBadId)).1.num_documents = s0.num_documents ∧
     (∀ k, k ≠ get_next_seq_id_key cfgTitle.name →
       storeGet (Collection.add cfgTitle s0 (some docBadId)).1.store k = storeGet s0.store k) ∧
     ((Collection.add cfgTitle s0 (some docBadId)).1.next_seq_id = s0.next_seq_id ∨
       (Collection.add cfgTitle s0 (some docBadId)).1.next_seq_id = (s0.next_seq_id + 1) % 2 ^ 32)) :=
  ⟨rfl, add_400_no_doc_mutation cfgTitle s0 (some docBadId)
    (fun d hd => by cases hd; rfl) _ rfl⟩

/-- Every failing branch of the token-ranking checks carries code 400. -/
theorem checkTokenRanking_err400 (cfg : CollectionCfg) (d : Json) (c : Nat) (m : String)
    (h : checkTokenRanking cfg d = .err c m) : c = 400 := by
  unfold checkTokenRanking at h
  split_ifs at h <;> first | (injection h with h1 h2; exact h1.symm) | exact Opt.noConfusion h

/-- The token-ranking checks accept or fail with 400. -/
theorem checkTokenRanking_shape (cfg : CollectionCfg) (d : Json) :
    checkTokenRanking cfg d = .ok () ∨ ∃ m, checkTokenRanking cfg d = .err 400 m := by
  rcases h : checkTokenRanking cfg d with v | ⟨c, m⟩
  · exact Or.inl rfl
  · have hc := checkTokenRanking_err400 cfg d c m h
    subst hc
    exact Or.inr ⟨m, rfl⟩

/-- Every failing branch of a search-schema field check carries code 400. -/
theorem checkSearchField_err400 (d : Json) (fld : Field) (c : Nat) (m : String)
    (h : checkSearchField d fld = .err c m) : c = 400 := by
  obtain ⟨nm, ft, fc⟩ := fld
  cases ft <;> unfold checkSearchField at h <;> dsimp only at h <;>
    split_ifs at h <;>
    first | (injection h with h1 h2; exact h1.symm) | exact Opt.noConfusion h

/-- A search-schema field check accepts or fails with 400. -/
theorem checkSearchField_shape (d : Json) (fld : Field) :
    checkSearchField d fld = .ok () ∨ ∃ m, checkSearchField d fld = .err 400 m := by
  rcases h : checkSearchField d fld with v | ⟨c, m⟩
  · exact Or.inl rfl
  · have hc := checkSearchField_err400 d fld c m h
    subst hc
    exact Or.inr ⟨m, rfl⟩

/-- The search-schema loop is ok or fails with 400. -/
theorem checkSearchFields_shape (d : Json) (fields : List Field) :
    checkSearchFields d fields = .ok () ∨ ∃ m, checkSearchFields d fields = .err 400 m := by
  induction fields with
  | nil => exact Or.inl rfl
  | cons g rest ih =>
      rcases checkSearchField_shape d g with hg | ⟨m, hg⟩
      · unfold checkSearchFields
        rw [hg]
        exact ih
      · unfold checkSearchFields
        rw [hg]
        exact Or.inr ⟨m, rfl⟩

/-- Every failing branch of a facet field check carries code 400. -/
theorem checkFacetField_err400 (d : Json) (fld : Field) (c : Nat) (m : String)
    (h : checkFacetField d fld = .err c m) : c = 400 := by
  obtain ⟨nm, ft, fc⟩ := fld
  cases ft <;> unfold checkFacetField at h <;> dsimp only at h <;>
    split_ifs at h <;>
    first | (injection h with h1 h2; exact h1.symm) | exact Opt.noConfusion h

/-- A facet field check accepts or fails with 400. -/
theorem checkFacetField_shape (d : Json) (fld : Field) :
    checkFacetField d fld = .ok () ∨ ∃ m, checkFacetField d fld = .err 400 m := by
  rcases h : checkFacetField d fld with v | ⟨c, m⟩
  · exact Or.inl rfl
  · have hc := checkFacetField_err400 d fld c m h
    subst hc
    exact Or.inr ⟨m, rfl⟩

/-- The facet-schema loop is ok or fails with 400. -/
theorem checkFacetFields_shape (d : Json) (fields : List Field) :
    checkFacetFields d fields = .ok () ∨ ∃ m, checkFacetFields d fields = .err 400 m := by
  induction fields with
  | nil => exact Or.inl rfl
  | cons g rest ih =>
      rcases checkFacetField_shape d g with hg | ⟨m, hg⟩
      · unfold checkFacetFields
        rw [hg]
        exact ih
      · unfold checkFacetFields
        rw [hg]
        exact Or.inr ⟨m, rfl⟩

/-- `validate_index_in_memory` either accepts or fails with a 400. -/
theorem validate_shape (cfg : CollectionCfg) (d : Json) :
    Collection.validate_index_in_memory cfg d = .ok () ∨
      ∃ m, Collection.validate_index_in_memory cfg d = .err 400 m := by
  unfold Collection.validate_index_in_memory
  rcases checkTokenRanking_shape cfg d with h1 | ⟨m, h1⟩
  · rw [h1]
    rcases checkSearchFields_shape d (search_schema cfg) with h2 | ⟨m2, h2⟩
    · rw [h2]
      exact checkFacetFields_shape d (facet_schema cfg)
    · rw [h2]
      exact Or.inr ⟨m2, rfl⟩
  · rw [h1]
    exact Or.inr ⟨m, rfl⟩

/-- A successful search-schema loop validates each of its fields. -/
theorem checkSearchFields_ok_mem (d : Json) (fields : List Field) (f : Field) :
    checkSearchFields d fields = .ok () → f ∈ fields → checkSearchField d f = .ok () := by
  induction fields with
  | nil =>
      intro _ hf
      cases hf
  | cons g rest ih =>
      intro hok hf
      rcases hg : checkSearchField d g with v | ⟨c, m⟩
      · rcases List.mem_cons.mp hf with rfl | hf2
        · cases v
          exact hg
        · apply ih _ hf2
          unfold checkSearchFields at hok
          rw [hg] at hok
          exact hok
      · unfold checkSearchFields at hok
        rw [hg] at hok
        exact Opt.noConfusion hok

/-- A field of the search schema that fails its own check makes the whole
validation fail with 400. -/
theorem validate_err_of_search_field (cfg : CollectionCfg) (d : Json) (f : Field)
    (hf : f ∈ search_schema cfg) (hbad : checkSearchField d f ≠ .ok ()) :
    ∃ m, Collection.validate_index_in_memory cfg d = .err 400 m := by
  rcases validate_shape cfg d with hok | h400
  · exfalso
    unfold Collection.validate_index_in_memory at hok
    rcases h1 : checkTokenRanking cfg d with v | ⟨c, m⟩
    · rw [h1] at hok
      rcases h2 : checkSearchFields d (search_schema cfg) with v2 | ⟨c2, m2⟩
      · exact hbad (checkSearchFields_ok_mem d _ f (by cases v2; exact h2) hf)
      · rw [h2] at hok
        exact Opt.noConfusion hok
    · rw [h1] at hok
      exact Opt.noConfusion hok
  · exact h400

/-- C7 (amended): validation rejects with 400 a scalar `int32` field whose
integer value exceeds INT32_MAX, and rejects a float value for a scalar
`int32` field; `int32[]` fields only have array-ness and the integer-ness
of element 0 checked, so no magnitude check applies to them. -/
theorem int32_validation_rejects (cfg : CollectionCfg) (d : Json) (f : Field)
    (hf : f ∈ search_schema cfg) (ht : f.type = FieldType.INT32)
    (hbad : (∃ n, d.get f.name = Json.numInt n ∧ INT32_MAX < n) ∨
            (∃ bits, d.get f.name = Json.numFloat bits)) :
    ∃ m, Collection.validate_index_in_memory cfg d = Opt.err 400 m := by
  apply validate_err_of_search_field cfg d f hf
  intro hok
  unfold checkSearchField at hok
  by_cases h0 : d.count f.name = 0
  · rw [if_pos h0] at hok
    exact Opt.noConfusion hok
  · rw [if_neg h0, ht] at hok
    rcases hbad with ⟨n, hv, hn⟩ | ⟨bits, hv⟩
    · simp [hv, Json.isNumInt, Json.getInt, hn] at hok
    · simp [hv, Json.isNumInt] at hok

/-- C7 counterexample: an `int32[]` element exceeding INT32_MAX passes
validation (no range check is applied to array elements). -/
theorem int32_array_overflow_accepted :
    Collection.validate_index_in_memory (cfgOf "nums" FieldType.INT32_ARRAY false)
      (Json.obj [("nums", Json.arr [Json.numInt (2 ^ 31)])]) = Opt.ok () := rfl

/-- Witness for the amended C7 theorem. -/
theorem int32_validation_rejects_w :
    ∃ m, Collection.validate_index_in_memory (cfgOf "p" FieldType.INT32 false)
      (Json.obj [("p", Json.numInt (2 ^ 31))]) = Opt.err 400 m :=
  int32_validation_rejects (cfgOf "p" FieldType.INT32 false)
    (Json.obj [("p", Json.numInt (2 ^ 31))]) ⟨"p", FieldType.INT32, false⟩
    (List.mem_singleton.mpr rfl) rfl
    (Or.inl ⟨2 ^ 31, rfl, by norm_num [INT32_MAX]⟩)

/-- C8 (amended): a scalar `float` field accepts any JSON number (integer
or float valued); a `float[]` field instead requires element 0 to be
float-typed, so an integer first element is rejected. -/
theorem float_field_accepts_any_number (fname : String) (v : Json) (hv : v.isNum = true) :
    Collection.validate_index_in_memory (cfgOf fname FieldType.FLOAT false)
      (Json.obj [(fname, v)]) = Opt.ok () := by
  unfold Collection.validate_index_in_memory checkTokenRanking
  simp [cfgOf, search_schema, facet_schema, Field.is_facet, checkSearchFields,
    checkSearchField, checkFacetFields, Json.count, Json.get, hv]

/-- C8 counterexample: a `float[]` field whose first element is an integer
JSON number is rejected with 400. -/
theorem float_array_rejects_integer_element :
    Collection.validate_index_in_memory (cfgOf "r" FieldType.FLOAT_ARRAY false)
      (Json.obj [("r", Json.arr [Json.numInt 2])]) =
      Opt.err 400 "Field `r` must be a float array." := rfl

/-- Witness for the amended C8 theorem. -/
theorem float_field_accepts_any_number_w :
    Collection.validate_index_in_memory (cfgOf "rating" FieldType.FLOAT false)
      (Json.obj [("rating", Json.numInt 5)]) = Opt.ok () :=
  float_field_accepts_any_number "rating" (Json.numInt 5) rfl

/-- C10: for every array-typed field (`string[]`, `int32[]`, `int64[]`,
`float[]`, and facet string arrays) validation inspects only element 0: an
empty array, or any array whose first element has the declared element
type, is accepted regardless of the remaining elements. -/
theorem array_validation_checks_only_head (fname : String) (l : List Json) :
    ((Collection.validate_index_in_memory (cfgOf fname FieldType.STRING_ARRAY false)
        (Json.obj [(fname, Json.arr l)])).isOk
      = (l.isEmpty || (l.getD 0 Json.null).isString)) ∧
    ((Collection.validate_index_in_memory (cfgOf fname FieldType.INT32_ARRAY false)
        (Json.obj [(fname, Json.arr l)])).isOk
      = (l.isEmpty || (l.getD 0 Json.null).isNumInt)) ∧
    ((Collection.validate_index_in_memory (cfgOf fname FieldType.INT64_ARRAY false)
        (Json.obj [(fname, Json.arr l)])).isOk
      = (l.isEmpty || (l.getD 0 Json.null).isNumInt)) ∧
    ((Collection.validate_index_in_memory (cfgOf fname FieldType.FLOAT_ARRAY false)
        (Json.obj [(fname, Json.arr l)])).isOk
      = (l.isEmpty || (l.getD 0 Json.null).isNumFloat)) ∧
    ((Collection.validate_index_in_memory (cfgOf fname FieldType.STRING_ARRAY true)
        (Json.obj [(fname, Json.arr l)])).isOk
      = (l.isEmpty || (l.getD 0 Json.null).isString)) := by
  refine ⟨?_, ?_, ?_, ?_, ?_⟩ <;>
  · unfold Collection.validate_index_in_memory checkTokenRanking
    cases l with
    | nil =>
        simp [cfgOf, search_schema, facet_schema, Field.is_facet, checkSearchFields,
          checkSearchField, checkFacetFields, checkFacetField, Json.count, Json.get,
          Json.atIdx, Json.size, Json.isArr, Json.isString, Json.isNumInt,
          Json.isNumFloat, Opt.isOk]
    | cons x xs =>
        cases x <;>
          simp [cfgOf, search_schema, facet_schema, Field.is_facet, checkSearchFields,
            checkSearchField, checkFacetFields, checkFacetField, Json.count, Json.get,
            Json.atIdx, Json.size, Json.isArr, Json.isString, Json.isNumInt,
            Json.isNumFloat, Opt.isOk]

/-- `lexGeB` is total. -/
theorem lexGeB_total (l1 l2 : List Int) : lexGeB l1 l2 = true ∨ lexGeB l2 l1 = true := by
  induction l1 generalizing l2 with
  | nil => cases l2 <;> simp [lexGeB]
  | cons a as ih =>
      cases l2 with
      | nil => simp [lexGeB]
      | cons b bs =>
          rcases lt_trichotomy a b with h | h | h
          · right
            simp [lexGeB, h]
          · subst h
            simpa [lexGeB] using ih bs
          · left
            simp [lexGeB, h]

/-- `lexGeB` is transitive. -/
theorem lexGeB_trans (l1 l2 l3 : List Int) (h12 : lexGeB l1 l2 = true)
    (h23 : lexGeB l2 l3 = true) : lexGeB l1 l3 = true := by
  induction l1 generalizing l2 l3 with
  | nil =>
      cases l2 <;> cases l3 <;> simp_all [lexGeB]
  | cons a as ih =>
      cases l2 with
      | nil => cases l3 <;> simp_all [lexGeB]
      | cons b bs =>
          cases l3 with
          | nil => simp [lexGeB]
          | cons c cs =>
              unfold lexGeB at h12 h23 ⊢
              by_cases hba : b < a
              · by_cases hcb : c < b
                · rw [if_pos (show c < a by omega)]
                · rw [if_neg hcb] at h23
                  by_cases hbc : b < c
                  · rw [if_pos hbc] at h23
                    exact absurd h23 (by simp)
                  · rw [if_pos (show c < a by omega)]
              · rw [if_neg hba] at h12
                by_cases hab : a < b
                · rw [if_pos hab] at h12
                  exact absurd h12 (by simp)
                · have heq : b = a := by omega
                  subst heq
                  rw [if_neg (lt_irrefl b)] at h12
                  by_cases hca : c < b
                  · rw [if_pos hca]
                  · rw [if_neg hca] at h23 ⊢
                    by_cases hac : b < c
                    · rw [if_pos hac] at h23
                      exact absurd h23 (by simp)
                    · rw [if_neg hac] at h23 ⊢
                      exact ih bs cs h12 h23

/-- The insertion-sorted merge of `field_order_kvs` is descending in the
composite ranking tuple. -/
theorem sortKvs_sorted (l : List (Int × KV)) : List.Sorted kvGe (sortKvs l) := by
  letI : IsTotal (Int × KV) kvGe := ⟨fun a b => lexGeB_total (kvTuple a) (kvTuple b)⟩
  letI : IsTrans (Int × KV) kvGe :=
    ⟨fun a b c => lexGeB_trans (kvTuple a) (kvTuple b) (kvTuple c)⟩
  exact List.sorted_insertionSort kvGe l

/-- The sort is a permutation of the merged entries. -/
theorem sortKvs_perm (l : List (Int × KV)) : (sortKvs l).Perm l :=
  List.perm_insertionSort kvGe l

/-- C6 counterexample: a `search` with an empty `search_fields` list does
not return 400; it succeeds (here on an empty collection, with valid
pagination). -/
theorem search_empty_fields_counterexample :
    Collection.search cfgTitle s0 "foo" [] [] [] 10 1 shardEmpty snip0 =
      Opt.ok (Json.obj [("hits", Json.arr []), ("found", Json.numInt 0)]) ∧
    (Collection.search cfgTitle s0 "foo" [] [] [] 10 1 shardEmpty snip0).code = 200 :=
  ⟨rfl, rfl⟩

/-- C6 (amended): an empty `search_fields` list skips the per-field
validation loop entirely, so no 400 is produced: with valid pagination,
empty facet/sort arguments and no shard matches the call succeeds. -/
theorem search_empty_fields_succeeds (cfg : CollectionCfg) (s : CollectionState)
    (query : String) (per_page page : Nat) (shard : ShardOut)
    (snip : Int × KV → Json → String)
    (hpage : 1 ≤ page) (hmax : page * per_page ≤ MAX_RESULTS)
    (hkv : shard.field_order_kvs = []) :
    Collection.search cfg s query [] [] [] per_page page shard snip =
      Opt.ok (Json.obj [("hits", Json.arr []), ("found", Json.numInt shard.all_result_ids_len)]) := by
  unfold Collection.search
  rw [show validateSearchFieldNames cfg [] = .ok () from rfl,
    show validateFacetFieldNames cfg [] = .ok () from rfl,
    show validateSortFields cfg [] = .ok [] from rfl]
  rw [if_neg (by omega), if_neg (by omega), hkv]
  rw [if_pos (by simp [sortKvs, List.insertionSort])]

/-- Witness for the amended C6 theorem. -/
theorem search_empty_fields_succeeds_w :
    Collection.search cfgTitle s0 "bar" [] [] [] 10 1 shardEmpty snip0 =
      Opt.ok (Json.obj [("hits", Json.arr []), ("found", Json.numInt shardEmpty.all_result_ids_len)]) :=
  search_empty_fields_succeeds cfgTitle s0 "bar" 10 1 shardEmpty snip0
    (by norm_num) (by norm_num [MAX_RESULTS]) rfl

/-- C2 counterexample: a successful `search` whose page slice is empty
returns a JSON object with only the keys `hits` and `found`: the
`facet_counts` key is missing because the early return precedes it. -/
theorem search_missing_facet_counts :
    Collection.search cfgTitle s0 "q" ["title"] [] [] 10 1 shardEmpty snip0 =
      Opt.ok (Json.obj [("hits", Json.arr []), ("found", Json.numInt 0)]) ∧
    Json.objKeys (Json.obj [("hits", Json.arr []), ("found", Json.numInt 0)]) = ["hits", "found"] :=
  ⟨rfl, rfl⟩

/-- C2 (amended): a successful `search` has exactly the top-level keys
`hits`, `found`, `facet_counts` when the page slice is non-empty; when the
slice is empty the early return yields exactly `hits = []` and
`found = total_matched`, with no `facet_counts` key. -/
theorem search_response_keys (cfg : CollectionCfg) (s : CollectionState)
    (query : String) (search_fields facet_fields : List String)
    (sort_flds : List SortBy) (per_page page : Nat) (shard : ShardOut)
    (snip : Int × KV → Json → String) (j : Json)
    (h : Collection.search cfg s query search_fields facet_fields sort_flds
      per_page page shard snip = Opt.ok j) :
    if (sortKvs shard.field_order_kvs).length ≤ (page - 1) * per_page then
      j = Json.obj [("hits", Json.arr []), ("found", Json.numInt shard.all_result_ids_len)]
    else
      Json.objKeys j = ["hits", "found", "facet_counts"] := by
  unfold Collection.search at h
  rcases h1 : validateSearchFieldNames cfg search_fields with v1 | ⟨c1, m1⟩ <;> rw [h1] at h
  case err => exact Opt.noConfusion h
  rcases h2 : validateFacetFieldNames cfg facet_fields with v2 | ⟨c2, m2⟩ <;> rw [h2] at h
  case err => exact Opt.noConfusion h
  rcases h3 : validateSortFields cfg sort_flds with l3 | ⟨c3, m3⟩ <;> rw [h3] at h
  case err => exact Opt.noConfusion h
  by_cases hp : page < 1
  · rw [if_pos hp] at h
    exact Opt.noConfusion h
  rw [if_neg hp] at h
  by_cases hm : page * per_page > MAX_RESULTS
  · rw [if_pos hm] at h
    exact Opt.noConfusion h
  rw [if_neg hm] at h
  by_cases hsl : (sortKvs shard.field_order_kvs).length ≤ (page - 1) * per_page
  · rw [if_pos hsl] at h
    rw [if_pos hsl]
    injection h with h4
    exact h4.symm
  · rw [if_neg hsl] at h
    rw [if_neg hsl]
    dsimp only at h
    rcases h5 : emitHits cfg s search_fields snip
        (((sortKvs shard.field_order_kvs).drop ((page - 1) * per_page)).take
          (min (page * per_page) (sortKvs shard.field_order_kvs).length - (page - 1) * per_page))
      with hits | ⟨c5, m5⟩ <;> rw [h5] at h
    · injection h with h6
      rw [← h6]
      rfl
    · exact Opt.noConfusion h

/-- Witness for the amended C2 theorem at the empty-slice call. -/
theorem search_response_keys_w :
    if (sortKvs shardEmpty.field_order_kvs).length ≤ (1 - 1) * 10 then
      (Json.obj [("hits", Json.arr []), ("found", Json.numInt 0)]) =
        Json.obj [("hits", Json.arr []), ("found", Json.numInt shardEmpty.all_result_ids_len)]
    else
      Json.objKeys (Json.obj [("hits", Json.arr []), ("found", Json.numInt 0)]) =
        ["hits", "found", "facet_counts"] :=
  search_response_keys cfgTitle s0 "q" ["title"] [] [] 10 1 shardEmpty snip0
    (Json.obj [("hits", Json.arr []), ("found", Json.numInt 0)]) rfl

/-- C9: on every successful `search`, the merged per-shard entries are
sorted descending by the composite tuple `(match_score, primary_attr,
secondary_attr, field_order_index, seq_id)` (the sort is a permutation of
the merged entries), and the emitted `hits` are exactly the documents of
the contiguous slice starting at `(page-1)*per_page` of that sorted
sequence. -/
theorem search_hits_are_sorted_slice (cfg : CollectionCfg) (s : CollectionState)
    (query : String) (search_fields facet_fields : List String)
    (sort_flds : List SortBy) (per_page page : Nat) (shard : ShardOut)
    (snip : Int × KV → Json → String) (j : Json)
    (h : Collection.search cfg s query search_fields facet_fields sort_flds
      per_page page shard snip = Opt.ok j) :
    List.Sorted kvGe (sortKvs shard.field_order_kvs) ∧
    (sortKvs shard.field_order_kvs).Perm shard.field_order_kvs ∧
    ∃ hits,
      emitHits cfg s search_fields snip
        (((sortKvs shard.field_order_kvs).drop ((page - 1) * per_page)).take
          (min (page * per_page) (sortKvs shard.field_order_kvs).length - (page - 1) * per_page))
        = Opt.ok hits ∧
      Json.get j "hits" = Json.arr hits := by
  refine ⟨sortKvs_sorted _, sortKvs_perm _, ?_⟩
  unfold Collection.search at h
  rcases h1 : validateSearchFieldNames cfg search_fields with v1 | ⟨c1, m1⟩ <;> rw [h1] at h
  case err => exact Opt.noConfusion h
  rcases h2 : validateFacetFieldNames cfg facet_fields with v2 | ⟨c2, m2⟩ <;> rw [h2] at h
  case err => exact Opt.noConfusion h
  rcases h3 : validateSortFields cfg sort_flds with l3 | ⟨c3, m3⟩ <;> rw [h3] at h
  case err => exact Opt.noConfusion h
  by_cases hp : page < 1
  · rw [if_pos hp] at h
    exact Opt.noConfusion h
  rw [if_neg hp] at h
  by_cases hm : page * per_page > MAX_RESULTS
  · rw [if_pos hm] at h
    exact Opt.noConfusion h
  rw [if_neg hm] at h
  by_cases hsl : (sortKvs shard.field_order_kvs).length ≤ (page - 1) * per_page
  · rw [if_pos hsl] at h
    injection h with h4
    refine ⟨[], ?_, ?_⟩
    · rw [List.drop_eq_nil_of_le hsl]
      simp [emitHits]
    · rw [← h4]
      rfl
  · rw [if_neg hsl] at h
    dsimp only at h
    rcases h5 : emitHits cfg s search_fields snip
        (((sortKvs shard.field_order_kvs).drop ((page - 1) * per_page)).take
          (min (page * per_page) (sortKvs shard.field_order_kvs).length - (page - 1) * per_page))
      with hits | ⟨c5, m5⟩ <;> rw [h5] at h
    · injection h with h6
      refine ⟨hits, rfl, ?_⟩
      rw [← h6]
      rfl
    · exact Opt.noConfusion h

/-- Witness for C9 at a one-document collection with one ranked entry. -/
theorem search_hits_are_sorted_slice_w :
    List.Sorted kvGe (sortKvs shardOne.field_order_kvs) ∧
    (sortKvs shardOne.field_order_kvs).Perm shardOne.field_order_kvs ∧
    ∃ hits,
      emitHits cfgTitle sSeven ["title"] snip0
        (((sortKvs shardOne.field_order_kvs).drop ((1 - 1) * 10)).take
          (min (1 * 10) (sortKvs shardOne.field_order_kvs).length - (1 - 1) * 10))
        = Opt.ok hits ∧
      Json.get (Json.obj [("hits",
          Json.arr [Json.obj [("title", Json.str "hello"),
            ("_highlight", Json.obj [("title", Json.str "")])]]),
        ("found", Json.numInt 1), ("facet_counts", Json.arr [])]) "hits" = Json.arr hits :=
  search_hits_are_sorted_slice cfgTitle sSeven "hello" ["title"] [] [] 10 1 shardOne snip0
    (Json.obj [("hits",
        Json.arr [Json.obj [("title", Json.str "hello"),
          ("_highlight", Json.obj [("title", Json.str "")])]]),
      ("found", Json.numInt 1), ("facet_counts", Json.arr [])]) rfl

/-- `strBytes` distributes over string concatenation. -/
theorem strBytes_append (a b : String) : strBytes (a ++ b) = strBytes a ++ strBytes b := by
  cases a
  cases b
  simp [strBytes, String.append]

/-- A `doc_id_key` always carries the `<collection_id>_$DI_` tag. -/
theorem isDocKey_doc_id_key (cfg : CollectionCfg) (doc_id : String) :
    isDocKey cfg (get_doc_id_key cfg.collection_id doc_id) = true := by
  unfold isDocKey get_doc_id_key
  rw [List.take_left]
  exact beq_self_eq_true _

/-- A `seq_id_key` never carries the `$DI` tag (its tag byte is `S`, not
`D`). -/
theorem isDocKey_seq_id_key (cfg : CollectionCfg) (n : Nat) :
    isDocKey cfg (get_seq_id_key cfg.collection_id n) = false := by
  unfold isDocKey get_seq_id_key seq_id_head doc_tag
  simp only [strBytes_append, List.append_assoc,
    show strBytes "_" = [95] from rfl,
    show strBytes "$DI" = [36, 68, 73] from rfl,
    show strBytes "$SI" = [36, 83, 73] from rfl]
  rw [beq_eq_false_iff_ne]
  intro heq
  rw [List.take_append_eq_append_take] at heq
  have hlen : (strBytes (toString cfg.collection_id) ++ ([95] ++ ([36, 68, 73] ++ [95]))).length
      = (strBytes (toString cfg.collection_id)).length + 5 := by
    simp
  rw [hlen, List.take_all_of_le (by omega)] at heq
  have htail := List.append_cancel_left heq
  simp at htail

/-- Upserting preserves key uniqueness. -/
theorem keysNodup_insert {st : Store} (k : Key) (v : StoreVal) (h : keysNodup st) :
    keysNodup (storeInsert st k v) := by
  unfold keysNodup storeInsert
  rw [List.map_cons, List.nodup_cons]
  constructor
  · intro hmem
    rcases List.mem_map.mp hmem with ⟨e, he, hek⟩
    rcases List.mem_filter.mp he with ⟨_, hne⟩
    simp at hne
    exact hne hek
  · exact List.Nodup.sublist (List.Sublist.map _ (List.filter_sublist st)) h

/-- Removal preserves key uniqueness. -/
theorem keysNodup_remove {st : Store} (k : Key) (h : keysNodup st) :
    keysNodup (storeRemove st k) :=
  List.Nodup.sublist (List.Sublist.map _ (List.filter_sublist st)) h

/-- Counter increments preserve key uniqueness. -/
theorem keysNodup_increment {st : Store} (k : Key) (d : Nat) (h : keysNodup st) :
    keysNodup (storeIncrement st k d) := by
  unfold storeIncrement
  rcases storeGet st k with _ | v
  · exact keysNodup_insert k _ h
  · rcases v with s | j | n <;> exact keysNodup_insert k _ h

/-- Filtering out a non-`doc_id_key` key does not change the doc key count. -/
theorem docKeyCount_filter_ne (cfg : CollectionCfg) (st : Store) (k : Key)
    (hk : isDocKey cfg k = false) :
    docKeyCount cfg (st.filter (fun e => ¬ (e.1 = k))) = docKeyCount cfg st := by
  unfold docKeyCount
  rw [List.filter_filter]
  congr 1
  apply List.filter_congr
  intro e he
  by_cases hd : isDocKey cfg e.1 = true
  · have hne : e.1 ≠ k := by
      intro hek
      rw [hek, hk] at hd
      exact Bool.noConfusion hd
    simp [hd, hne]
  · simp only [Bool.not_eq_true] at hd
    simp [hd]

/-- Upserting under a non-`doc_id_key` key does not change the doc key
count. -/
theorem docKeyCount_insert_nonkey (cfg : CollectionCfg) (st : Store) (k : Key)
    (v : StoreVal) (hk : isDocKey cfg k = false) :
    docKeyCount cfg (storeInsert st k v) = docKeyCount cfg st := by
  unfold storeInsert
  have h1 : docKeyCount cfg ((k, v) :: st.filter (fun e => ¬ (e.1 = k)))
      = docKeyCount cfg (st.filter (fun e => ¬ (e.1 = k))) := by
    unfold docKeyCount
    rw [List.filter_cons]
    simp [hk]
  rw [h1, docKeyCount_filter_ne cfg st k hk]

/-- Removing a non-`doc_id_key` key does not change the doc key count. -/
theorem docKeyCount_remove_nonkey (cfg : CollectionCfg) (st : Store) (k : Key)
    (hk : isDocKey cfg k = false) :
    docKeyCount cfg (storeRemove st k) = docKeyCount cfg st :=
  docKeyCount_filter_ne cfg st k hk

/-- Counter increments do not change the doc key count. -/
theorem docKeyCount_increment_nonkey (cfg : CollectionCfg) (st : Store) (k : Key)
    (d : Nat) (hk : isDocKey cfg k = false) :
    docKeyCount cfg (storeIncrement st k d) = docKeyCount cfg st := by
  unfold storeIncrement
  rcases storeGet st k with _ | v
  · exact docKeyCount_insert_nonkey cfg st k _ hk
  · rcases v with s | j | n <;> exact docKeyCount_insert_nonkey cfg st k _ hk

/-- Inserting a fresh `doc_id_key` raises the doc key count by one. -/
theorem docKeyCount_insert_fresh (cfg : CollectionCfg) (st : Store) (k : Key)
    (v : StoreVal) (hk : isDocKey cfg k = true) (habs : storeGet st k = none) :
    docKeyCount cfg (storeInsert st k v) = docKeyCount cfg st + 1 := by
  unfold storeInsert
  have hall : ∀ e ∈ st, ¬ ((fun e => e.1 == k) (e : Key × StoreVal)) = true := by
    unfold storeGet at habs
    rw [Option.map_eq_none'] at habs
    exact List.find?_eq_none.mp habs
  have hfeq : st.filter (fun e => ¬ (e.1 = k)) = st := by
    rw [List.filter_eq_self]
    intro e he
    have := hall e he
    simp only [beq_iff_eq] at this
    simp [this]
  rw [hfeq]
  unfold docKeyCount
  rw [List.filter_cons]
  simp [hk, Nat.add_comm]

/-- Removing a present `doc_id_key` (keys unique) lowers the doc key count
by exactly one. -/
theorem docKeyCount_remove_present (cfg : CollectionCfg) (st : Store) (k : Key)
    (hk : isDocKey cfg k = true) (hnod : keysNodup st) (v : StoreVal)
    (hget : storeGet st k = some v) :
    docKeyCount cfg st = docKeyCount cfg (storeRemove st k) + 1 := by
  induction st with
  | nil => exact Option.noConfusion hget
  | cons e rest ih =>
      unfold keysNodup at hnod
      rw [List.map_cons, List.nodup_cons] at hnod
      by_cases he : e.1 = k
      · have hrest : rest.filter (fun x => ¬ (x.1 = k)) = rest := by
          rw [List.filter_eq_self]
          intro a ha
          have hmem : a.1 ∈ rest.map (fun x => x.1) := List.mem_map.mpr ⟨a, ha, rfl⟩
          have hne : a.1 ≠ k := by
            intro hak
            apply hnod.1
            rw [he, ← hak]
            exact hmem
          simp [hne]
        have hd : isDocKey cfg e.1 = true := by rw [he]; exact hk
        unfold docKeyCount storeRemove
        have hA : List.filter (fun x => ¬ (x.1 = k)) (e :: rest)
            = List.filter (fun x => ¬ (x.1 = k)) rest := by
          simp only [List.filter_cons]
          simp [he]
        rw [hA, hrest]
        have hB : List.filter (fun x => isDocKey cfg x.1) (e :: rest)
            = e :: List.filter (fun x => isDocKey cfg x.1) rest := by
          simp only [List.filter_cons]
          simp [hd]
        rw [hB]
        simp
      · have hget2 : storeGet rest k = some v := by
          unfold storeGet at hget ⊢
          rw [List.find?_cons_of_neg _ (by simp [he])] at hget
          exact hget
        have htail := ih hnod.2 hget2
        unfold docKeyCount storeRemove at htail ⊢
        have h1 : List.filter (fun x => ¬ (x.1 = k)) (e :: rest)
            = e :: List.filter (fun x => ¬ (x.1 = k)) rest := by
          simp only [List.filter_cons]
          simp [he]
        rw [h1]
        by_cases hd : isDocKey cfg e.1 = true
        · have h2 : ∀ l : Store, List.filter (fun x => isDocKey cfg x.1) (e :: l)
              = e :: List.filter (fun x => isDocKey cfg x.1) l := by
            intro l
            simp only [List.filter_cons]
            simp [hd]
          rw [h2, h2]
          simp only [List.length_cons]
          omega
        · have hd2 : isDocKey cfg e.1 = false := by
            simpa using hd
          have h2 : ∀ l : Store, List.filter (fun x => isDocKey cfg x.1) (e :: l)
              = List.filter (fun x => isDocKey cfg x.1) l := by
            intro l
            simp only [List.filter_cons]
            simp [hd2]
          rw [h2, h2]
          exact htail

/-- The Store after a successful `add` write pair: the counter increment
does not affect doc keys, the fresh doc_id key adds one, the seq_id key
adds none. -/
theorem store_after_add (cfg : CollectionCfg) (st : Store) (doc_id : String)
    (sq : Nat) (v1 v2 : StoreVal)
    (hctr : isDocKey cfg (get_next_seq_id_key cfg.name) = false)
    (hnod : keysNodup st)
    (hfresh : storeGet st (get_doc_id_key cfg.collection_id doc_id) = none) :
    keysNodup (storeInsert (storeInsert (storeIncrement st (get_next_seq_id_key cfg.name) 1)
        (get_doc_id_key cfg.collection_id doc_id) v1)
      (get_seq_id_key cfg.collection_id sq) v2) ∧
    docKeyCount cfg (storeInsert (storeInsert (storeIncrement st (get_next_seq_id_key cfg.name) 1)
        (get_doc_id_key cfg.collection_id doc_id) v1)
      (get_seq_id_key cfg.collection_id sq) v2) = docKeyCount cfg st + 1 := by
  have hne : get_doc_id_key cfg.collection_id doc_id ≠ get_next_seq_id_key cfg.name := by
    intro heq
    have h1 := isDocKey_doc_id_key cfg doc_id
    rw [heq, hctr] at h1
    exact Bool.noConfusion h1
  have hfresh2 : storeGet (storeIncrement st (get_next_seq_id_key cfg.name) 1)
      (get_doc_id_key cfg.collection_id doc_id) = none := by
    rw [storeGet_increment_ne _ _ _ _ hne]
    exact hfresh
  refine ⟨keysNodup_insert _ _ (keysNodup_insert _ _ (keysNodup_increment _ _ hnod)), ?_⟩
  rw [docKeyCount_insert_nonkey _ _ _ _ (isDocKey_seq_id_key cfg sq),
    docKeyCount_insert_fresh _ _ _ _ (isDocKey_doc_id_key cfg doc_id) hfresh2,
    docKeyCount_increment_nonkey _ _ _ _ hctr]

/-- One `add` preserves key uniqueness and the num_documents invariant when
its id is fresh. -/
theorem add_preserves (cfg : CollectionCfg) (s : CollectionState) (input : Option Json)
    (hctr : isDocKey cfg (get_next_seq_id_key cfg.name) = false)
    (hnod : keysNodup s.store) (hinv : docsInvariant cfg s)
    (hsafe : opSafe cfg s (.addDoc input) = true) :
    keysNodup (applyOp cfg s (.addDoc input)).store ∧
      docsInvariant cfg (applyOp cfg s (.addDoc input)) := by
  rcases input with _ | d
  · exact ⟨hnod, hinv⟩
  · simp only [opSafe, Bool.and_eq_true] at hsafe
    obtain ⟨hfresh, _hobj⟩ := hsafe
    by_cases h1 : d.count "id" = 0
    · rcases hv : Collection.validate_index_in_memory cfg
          (d.setKey "id" (.str (toString s.next_seq_id))) with v | ⟨c', m'⟩
      · simp only [applyOp] at *
        simp [Collection.add, Collection.get_next_seq_id, Collection.index_in_memory,
          h1, hv] at hfresh ⊢
        have hf2 := hfresh
        have H := store_after_add cfg s.store _ s.next_seq_id
          (.sv (toString s.next_seq_id))
          (.jv (d.setKey "id" (.str (toString s.next_seq_id)))) hctr hnod hf2
        refine ⟨H.1, ?_⟩
        unfold docsInvariant at hinv ⊢
        simp only []
        rw [H.2]
        omega
      · simp only [applyOp]
        simp [Collection.add, Collection.get_next_seq_id, Collection.index_in_memory,
          h1, hv]
        refine ⟨keysNodup_increment _ _ hnod, ?_⟩
        unfold docsInvariant at hinv ⊢
        simp only []
        rw [docKeyCount_increment_nonkey _ _ _ _ hctr]
        exact hinv
    · by_cases h2 : (d.get "id").isString
      · rcases hv : Collection.validate_index_in_memory cfg d with v | ⟨c', m'⟩
        · simp only [applyOp] at *
          simp [Collection.add, Collection.get_next_seq_id, Collection.index_in_memory,
            h1, h2, hv] at hfresh ⊢
          have hf2 := hfresh
          have H := store_after_add cfg s.store _ s.next_seq_id
            (.sv (toString s.next_seq_id)) (.jv d) hctr hnod hf2
          refine ⟨H.1, ?_⟩
          unfold docsInvariant at hinv ⊢
          simp only []
          rw [H.2]
          omega
        · simp only [applyOp]
          simp [Collection.add, Collection.get_next_seq_id, Collection.index_in_memory,
            h1, h2, hv]
          refine ⟨keysNodup_increment _ _ hnod, ?_⟩
          unfold docsInvariant at hinv ⊢
          simp only []
          rw [docKeyCount_increment_nonkey _ _ _ _ hctr]
          exact hinv
      · simp only [applyOp]
        simp [Collection.add, Collection.get_next_seq_id, h1, h2]
        refine ⟨keysNodup_increment _ _ hnod, ?_⟩
        unfold docsInvariant at hinv ⊢
        simp only []
        rw [docKeyCount_increment_nonkey _ _ _ _ hctr]
        exact hinv

/-- One `remove` with `remove_from_store = true` preserves key uniqueness
and the num_documents invariant. -/
theorem remove_preserves (cfg : CollectionCfg) (s : CollectionState) (id : String)
    (rfs : Bool) (hnod : keysNodup s.store) (hinv : docsInvariant cfg s)
    (hsafe : opSafe cfg s (.removeDoc id rfs) = true) :
    keysNodup (applyOp cfg s (.removeDoc id rfs)).store ∧
      docsInvariant cfg (applyOp cfg s (.removeDoc id rfs)) := by
  have hrfs : rfs = true := hsafe
  subst hrfs
  rcases hget : storeGet s.store (get_doc_id_key cfg.collection_id id) with _ | v
  · simp only [applyOp]
    simp [Collection.remove, hget]
    exact ⟨hnod, hinv⟩
  · rcases hget2 : storeGet s.store (get_seq_id_key cfg.collection_id (stolD v))
      with _ | w
    · simp only [applyOp]
      simp [Collection.remove, hget, hget2]
      exact ⟨hnod, hinv⟩
    · rcases w with s2 | j | n
      · simp only [applyOp]
        simp [Collection.remove, hget, hget2]
        exact ⟨hnod, hinv⟩
      · simp only [applyOp]
        simp [Collection.remove, hget, hget2]
        refine ⟨keysNodup_remove _ (keysNodup_remove _ hnod), ?_⟩
        unfold docsInvariant at hinv ⊢
        simp only []
        rw [docKeyCount_remove_nonkey _ _ _ (isDocKey_seq_id_key cfg (stolD v))]
        have hdec := docKeyCount_remove_present cfg s.store
          (get_doc_id_key cfg.collection_id id) (isDocKey_doc_id_key cfg id) hnod v hget
        omega
      · simp only [applyOp]
        simp [Collection.remove, hget, hget2]
        exact ⟨hnod, hinv⟩

/-- C3 (amended): after any sequence of `add`/`remove` operations in which
every successful `add` introduces a document id not already present in the
Store and every `remove` uses `remove_from_store = true`, `num_documents`
equals the number of `doc_id_key` entries in the Store.  (The counter key
of the collection must not itself be tagged as a doc key, which holds for
every real configuration since `$CN_...` does not start with the decimal
collection id tag; it is decidable per configuration.) -/
theorem num_documents_eq_doc_key_count (cfg : CollectionCfg)
    (hctr : isDocKey cfg (get_next_seq_id_key cfg.name) = false)
    (ops : List CollOp) (s : CollectionState)
    (hnod : keysNodup s.store) (hinv : docsInvariant cfg s)
    (hsafe : safeTrace cfg s ops = true) :
    docsInvariant cfg (applyOps cfg ops s) := by
  induction ops generalizing s with
  | nil => exact hinv
  | cons op rest ih =>
      simp only [safeTrace, Bool.and_eq_true] at hsafe
      obtain ⟨hs1, hs2⟩ := hsafe
      cases op with
      | addDoc input =>
          have H := add_preserves cfg s input hctr hnod hinv hs1
          exact ih _ H.1 H.2 hs2
      | removeDoc id rfs =>
          have H := remove_preserves cfg s id rfs hnod hinv hs1
          exact ih _ H.1 H.2 hs2

/-- C3 counterexample: adding the same id twice leaves `num_documents = 2`
while the Store holds a single `doc_id_key` entry (the second insert
overwrites the first), falsifying the invariant for arbitrary sequences. -/
theorem num_documents_count_counterexample :
    (applyOps cfgTitle [.addDoc (some docA), .addDoc (some docA)] s0).num_documents = 2 ∧
    docKeyCount cfgTitle
      (applyOps cfgTitle [.addDoc (some docA), .addDoc (some docA)] s0).store = 1 ∧
    ¬ docsInvariant cfgTitle (applyOps cfgTitle [.addDoc (some docA), .addDoc (some docA)] s0) := by
  refine ⟨rfl, rfl, ?_⟩
  unfold docsInvariant
  decide

/-- Witness for the amended C3 theorem on a single fresh add. -/
theorem num_documents_eq_doc_key_count_w :
    isDocKey cfgTitle (get_next_seq_id_key cfgTitle.name) = false ∧
    keysNodup s0.store ∧ docsInvariant cfgTitle s0 ∧
    safeTrace cfgTitle s0 [.addDoc (some docA)] = true ∧
    docsInvariant cfgTitle (applyOps cfgTitle [.addDoc (some docA)] s0) :=
  ⟨by decide, List.nodup_nil, rfl, by decide,
   num_documents_eq_doc_key_count cfgTitle (by decide) [.addDoc (some docA)] s0
     List.nodup_nil rfl (by decide)⟩

end Typesense
